import Mathlib

/-!
Verification of the health-check listener in `src/healthcheck.cpp`
(`CHealthCheckSocket` and its nested `CHealthCheckThread`).

The embedding follows the POSIX (`#ifndef _WIN32`) branch of the source.
Error codes are modelled as `Int` with the standard Linux values; on POSIX
`GetError()` returns `errno`, so call sites that pass `GetError()` into
`HandleSocketError` pass the same value for the argument and for the global
`errno` that the function's `switch` actually inspects (the two are kept as
separate parameters because the C function receives the code as a parameter
`error` but switches on the global `errno`).

C++ exceptions (`throw CGenErr(...)`) are modelled with `Except CGenErr`;
a worker-loop step returns its state paired with `Option CGenErr`, `some e`
meaning the exception `e` escaped the step at that point.
-/

namespace HealthCheck

/-- A connection handle (`int` file descriptor on POSIX). -/
abbrev Socket := Nat

/-- The exception type thrown by the source (`CGenErr(strError, strTitle)`). -/
structure CGenErr where
  strError : String
  strTitle : String
deriving DecidableEq, Repr

/-! Linux values of the errno constants named in the source. -/

def EAGAIN : Int := 11
def EWOULDBLOCK : Int := 11
def EBADF : Int := 9
def EACCES : Int := 13
def EADDRINUSE : Int := 98
def EINVAL : Int := 22
def ENOTSOCK : Int := 88
def EOPNOTSUPP : Int := 95
def EFAULT : Int := 14
def EINTR : Int := 4
def EIOErr : Int := 5

/-- `HandleSocketError(int error)` from the source.  The C function takes the
code `error` as a parameter but its `switch` statement inspects the global
`errno`; both are explicit parameters here.  Every branch of the `switch`,
including `default`, throws a `CGenErr`, so the result is always `.error`.
Long messages are reproduced without the C line-continuation whitespace, the
EIO message is kept to its first sentence, and the apostrophe of the EINVAL
message is dropped; no claim depends on the exact wording of those two. -/
def HandleSocketError (error : Int) (errnoVal : Int) : Except CGenErr Unit :=
  if errnoVal = EACCES then
    .error ⟨"HealthCheck: The address is protected, and the user is not the superuser.", "Network Error"⟩
  else if errnoVal = EADDRINUSE then
    .error ⟨"HealthCheck: The given address is already in use.", "Network Error"⟩
  else if errnoVal = EBADF then
    .error ⟨"HealthCheck: not a valid file descriptor or is not open for reading.", "Network Error"⟩
  else if errnoVal = EINVAL then
    .error ⟨"HealthCheck: The socket is already bound to an address, or addrlen is wrong, or addr is not a valid address for this sockets domain. ", "Network Error"⟩
  else if errnoVal = ENOTSOCK then
    .error ⟨"HealthCheck: The file descriptor sockfd does not refer to a socket.", "Network Error"⟩
  else if errnoVal = EOPNOTSUPP then
    .error ⟨"HealthCheck: The socket is not of a type that supports the listen() operation.", "Network Error"⟩
  else if errnoVal = EFAULT then
    .error ⟨"HealthCheck: buf is outside your accessible address space.", "Network Error"⟩
  else if errnoVal = EINTR then
    .error ⟨"HealthCheck: The call was interrupted by a signal before any data was read.", "Network Error"⟩
  else if errnoVal = EIOErr then
    .error ⟨"HealthCheck: I/O error.", "Network Error"⟩
  else
    .error ⟨"HealthCheck: Socket error # " ++ toString error, "Network Error"⟩

/-- The errno values that hit a named (non-default) case of the POSIX branch
of `HandleSocketError`'s switch. -/
def namedErrnos : List Int :=
  [EACCES, EADDRINUSE, EBADF, EINVAL, ENOTSOCK, EOPNOTSUPP, EFAULT, EINTR, EIOErr]

/-- `IsNonBlockingError` (POSIX branch): `error == EAGAIN || error == EWOULDBLOCK`. -/
def IsNonBlockingError (error : Int) : Bool :=
  error == EAGAIN || error == EWOULDBLOCK

/-- `IsDisconnectError` (POSIX branch): `error == EBADF`. -/
def IsDisconnectError (error : Int) : Bool :=
  error == EBADF

/-- `SocketConnected(int socket)` from the source, as a function of the
outcome of the one-byte `read(socket, &fakeBuffer, 1)`: `result` is the
return value of `read` and `errnoVal` the value of `errno` after the call
(inspected only when `result == -1`).  A `0` result returns `false`
(peer performed an orderly shutdown); `-1` with a non-blocking errno returns
`true`; `-1` with a disconnect errno returns `false`; any other `-1` reaches
`HandleSocketError`, which always throws, so the trailing `return false` of
the source is the dead `.ok` arm of the inner match. -/
def SocketConnected (result : Int) (errnoVal : Int) : Except CGenErr Bool :=
  if result = 0 then
    .ok false
  else if result = -1 then
    if IsNonBlockingError errnoVal then
      .ok true
    else if IsDisconnectError errnoVal then
      .ok false
    else
      match HandleSocketError errnoVal errnoVal with
      | .error exn => .error exn
      | .ok _ => .ok false
  else
    .ok true

/- `CloseSocket` has no return value; closing a socket is recorded in the
model by appending the handle to a `closed` trace list. -/

/-- Observable state of `CHealthCheckSocket` together with its nested
`CHealthCheckThread`: the thread's `bRun` flag, the `ConnectionSockets`
vector (front = oldest = index 0), the trace of handles passed to
`CloseSocket`, and whether `CHealthCheckSocket::Close()` has been called on
the listening socket. -/
structure HCState where
  bRun : Bool
  pool : List Socket
  closed : List Socket
  listenClosed : Bool
deriving DecidableEq, Repr

/-- Outcome of one `pSocket->Accept()` call: a new connection handle, or
`-1` with the given `errno`. -/
inductive AcceptResult where
  | acceptConn (s : Socket)
  | acceptError (errnoVal : Int)
deriving DecidableEq, Repr

/-- Environment of one iteration of `CHealthCheckThread::run`'s loop: the
`Accept()` outcome, whether `SetNonBlocking` on a freshly accepted handle
fails (`some errno`), and for each pooled handle the `(result, errno)` pair
of the one-byte `read` performed by `SocketConnected`. -/
structure TickEnv where
  accept : AcceptResult
  setNBErr : Option Int
  peek : Socket → Int × Int

/-- Extract the exception from a call modelled with `Except`; `none` when
the call returned normally. -/
def thrown : Except CGenErr Unit → Option CGenErr
  | .error e => some e
  | .ok _ => none

/-- The prune loop of `run` (lines 391-400): walk `ConnectionSockets` with
an iterator; a handle whose `SocketConnected` is `false` is closed and
erased (the erase yields the iterator to the next element), a connected one
is kept; an exception from `SocketConnected` escapes the loop with the
vector equal to the kept prefix followed by the unprocessed suffix (the
current handle is neither closed nor erased). -/
def pruneLoop (peek : Socket → Int × Int) (kept : List Socket) (rest : List Socket)
    (closed : List Socket) : List Socket × List Socket × Option CGenErr :=
  match rest with
  | [] => (kept, closed, none)
  | c :: cs =>
    match SocketConnected (peek c).1 (peek c).2 with
    | .error e => (kept ++ c :: cs, closed, some e)
    | .ok false => pruneLoop peek kept cs (closed ++ [c])
    | .ok true => pruneLoop peek (kept ++ [c]) cs closed

/-- The capacity-enforcement step of `run` (lines 404-413), with
`MAX_NUM_HEALTH_CONNECTIONS` as the parameter `cap` (its value lives in a
header outside the excerpt; every theorem below is proved for all values).
The source takes a reference `int& oldConnection = ConnectionSockets.front()`,
then calls `erase(cbegin())`, and only then `CloseSocket(oldConnection)`.
`vector::erase` shifts the later elements down, so after the erase the slot
the reference designates holds the former second element when one exists
(standard-library vectors do not reallocate on erase); only when the erased
element was the last one does the slot still hold the old front.  The handle
actually closed is therefore the new front, not the evicted one. -/
def capacityStep (cap : Nat) (pool : List Socket) (closed : List Socket) :
    List Socket × List Socket :=
  if pool.length > cap then
    match pool with
    | [] => (pool, closed)
    | old :: rest =>
      match rest with
      | [] => (rest, closed ++ [old])
      | newFront :: _ => (rest, closed ++ [newFront])
  else (pool, closed)

/-- Steps 2 and 3 of an iteration of `run`: prune, then enforce capacity.
An exception escaping the prune loop aborts the iteration (and the whole
`run`, since nothing in `run` catches it). -/
def pruneCapacity (cap : Nat) (peek : Socket → Int × Int) (st : HCState) :
    HCState × Option CGenErr :=
  let r := pruneLoop peek [] st.pool st.closed
  match r.2.2 with
  | some e => ({ st with pool := r.1, closed := r.2.1 }, some e)
  | none =>
    let r2 := capacityStep cap r.1 r.2.1
    ({ st with pool := r2.1, closed := r2.2 }, none)

/-- One iteration of the `while` loop of `CHealthCheckThread::run`
(lines 356-418).  Accept step: on `-1` with a non-blocking errno nothing
happens and control falls through to the prune step; on `-1` with any other
errno the source sets `bRun = false` and calls `HandleSocketError`, which
throws, so the subsequent `break` is never reached and the exception escapes
with the rest of the iteration skipped; on success `SetNonBlocking` is
attempted and, if it fails, `HandleSocketError` throws before the
`push_back`; otherwise the handle is appended at the tail. -/
def tick (cap : Nat) (env : TickEnv) (st : HCState) : HCState × Option CGenErr :=
  match env.accept with
  | .acceptError e =>
    if IsNonBlockingError e then
      pruneCapacity cap env.peek st
    else
      ({ st with bRun := false }, thrown (HandleSocketError e e))
  | .acceptConn s =>
    match env.setNBErr with
    | some e => (st, thrown (HandleSocketError e e))
    | none => pruneCapacity cap env.peek { st with pool := st.pool ++ [s] }

/-- The loop of `run`, driven by a list of per-iteration environments: each
iteration first re-checks `bRun` (and `pSocket != nullptr`, constant here);
an escaping exception ends the run with the state as at the throw. -/
def runTicks (cap : Nat) (envs : List TickEnv) (st : HCState) :
    HCState × Option CGenErr :=
  match envs with
  | [] => (st, none)
  | env :: restEnvs =>
    if st.bRun then
      match tick cap env st with
      | (st1, some e) => (st1, some e)
      | (st1, none) => runTicks cap restEnvs st1
    else (st, none)

/-- The state at entry of `run`'s loop: `run` sets `bRun = true` first; the
pool starts empty and nothing has been closed. -/
def initState : HCState :=
  { bRun := true, pool := [], closed := [], listenClosed := false }

/-- The connection-closing loop of `CHealthCheckThread::Stop` (lines
338-342):
`for (auto connection = cbegin(); connection != cend(); ++connection)`
with body `CloseSocket(*connection); connection = erase(connection);`.
The iterator is modelled as an index into the vector; `erase` returns the
position of the element after the erased one (the same index, elements
having shifted down), after which the `for`'s `++connection` advances it
again, so every other element is skipped.  When the incremented index passes
`cend()` the `!= cend()` test still succeeds and the next dereference is
past the end of the vector: undefined behaviour, modelled as `none`.  The
`fuel` only bounds the recursion; `threadStop` supplies enough for the loop
to reach its exit or its out-of-bounds access. -/
def stopCloseConnections (fuel : Nat) (idx : Nat) (pool : List Socket)
    (closed : List Socket) : Option (List Socket × List Socket) :=
  match fuel with
  | 0 => none
  | f + 1 =>
    if idx = pool.length then some (pool, closed)
    else
      match pool.get? idx with
      | none => none
      | some h => stopCloseConnections f (idx + 1) (pool.eraseIdx idx) (closed ++ [h])

/-- `CHealthCheckThread::Stop` (lines 332-345): clear `bRun`, close the
listening socket via `pSocket->Close()`, then run the connection-closing
loop; the bounded `wait(5000)` has no observable effect on this state.
`none` means the loop ran into undefined behaviour. -/
def threadStop (st : HCState) : Option HCState :=
  let st1 : HCState := { st with bRun := false, listenClosed := true }
  match stopCloseConnections (st1.pool.length + 2) 0 st1.pool st1.closed with
  | none => none
  | some (p, c) => some { st1 with pool := p, closed := c }

/-- Environment of `CHealthCheckSocket::Init` (lines 255-283): whether
`SetNonBlocking` on the fresh listening socket succeeds (with the errno
observed on failure), and the result and errno of `::bind`. -/
structure InitEnv where
  setNBOk : Bool
  setNBErrno : Int
  bindResult : Int
  bindErrno : Int

/-- `CHealthCheckSocket::Init`: create the socket, set it non-blocking
(`HandleSocketError(GetError())` on failure — throws), then bind
(`HandleSocketError(GetError())` on `-1` — throws). -/
def InitHC (env : InitEnv) : Except CGenErr Unit := do
  if !env.setNBOk then
    HandleSocketError env.setNBErrno env.setNBErrno
  if env.bindResult = -1 then
    HandleSocketError env.bindErrno env.bindErrno

/-- The constructor `CHealthCheckSocket(iPortNumber)` only calls `Init`; a
throwing `Init` propagates out of the constructor, so no object exists,
`Listen()` is never called and the accept thread (with its `bRun` flag,
initially `false`) is never started.  On success the object's thread is idle
and its pool empty. -/
def construct (env : InitEnv) : Except CGenErr HCState := do
  InitHC env
  pure { bRun := false, pool := [], closed := [], listenClosed := false }

/-! Concrete inputs used to exercise the model. -/

/-- A peek oracle under which every connection is still open: the one-byte
read returns `-1` with `errno = EAGAIN`. -/
def wbPeek : Socket → Int × Int := fun _ => (-1, EAGAIN)

/-- A peek oracle under which every one-byte read fails with `errno = EIO`,
an error that is neither non-blocking nor a disconnect. -/
def eioPeek : Socket → Int × Int := fun _ => (-1, EIOErr)

/-- A peek oracle under which every one-byte read returns `0`: the peer has
performed an orderly shutdown. -/
def zeroPeek : Socket → Int × Int := fun _ => (0, 0)

/-- Scenario B of the spec: three connections, modelled as handles 1, 2, 3,
are accepted on three consecutive iterations; no peer ever closes and
`SetNonBlocking` always succeeds. -/
def scenarioEnvs : List TickEnv :=
  [⟨.acceptConn 1, none, wbPeek⟩,
   ⟨.acceptConn 2, none, wbPeek⟩,
   ⟨.acceptConn 3, none, wbPeek⟩]

/-- A running worker holding the single pooled connection 7. -/
def stC3 : HCState := { bRun := true, pool := [7], closed := [], listenClosed := false }

/-- An iteration environment whose accept has nothing pending and whose
liveness peek fails with the fatal `EIO`. -/
def envC3 : TickEnv := ⟨.acceptError EAGAIN, none, eioPeek⟩

/-- A running worker holding pooled connections 4 and 5. -/
def stC5 : HCState := { bRun := true, pool := [4, 5], closed := [], listenClosed := false }

/-- An iteration environment whose `accept` fails with the fatal `EIO`. -/
def envC5 : TickEnv := ⟨.acceptError EIOErr, none, wbPeek⟩

/-- A running worker holding the single pooled connection 9. -/
def stC6 : HCState := { bRun := true, pool := [9], closed := [], listenClosed := false }

/-- Nothing pending on accept; the peek sees an orderly peer shutdown. -/
def envC6a : TickEnv := ⟨.acceptError EAGAIN, none, zeroPeek⟩

/-- Nothing pending on accept; the peek would block (peer still open). -/
def envC6b : TickEnv := ⟨.acceptError EAGAIN, none, wbPeek⟩

/-- The exception thrown for `errno = EADDRINUSE`. -/
def addrInUseExn : CGenErr :=
  ⟨"HealthCheck: The given address is already in use.", "Network Error"⟩

/-- The exception thrown for `errno = EIO` (message abbreviated as in
`HandleSocketError` above). -/
def eioExn : CGenErr := ⟨"HealthCheck: I/O error.", "Network Error"⟩

/-! Helper lemmas. -/

/-- Every branch of `HandleSocketError`, the `default` one included, throws. -/
theorem handleSocketError_always_error (e en : Int) :
    ∃ exn, HandleSocketError e en = .error exn := by
  unfold HandleSocketError
  repeat first
  | exact ⟨_, rfl⟩
  | split


/-- The prune loop never grows the pool: its resulting vector is at most as
long as the kept prefix plus the remaining suffix, in every outcome. -/
theorem pruneLoop_length_le (peek : Socket → Int × Int) :
    ∀ (rest kept closed : List Socket),
      ((pruneLoop peek kept rest closed).1).length ≤ kept.length + rest.length := by
  intro rest
  induction rest with
  | nil =>
    intro kept closed
    simp [pruneLoop]
  | cons c cs ih =>
    intro kept closed
    unfold pruneLoop
    rcases h : SocketConnected (peek c).1 (peek c).2 with e | b
    · simp
    · rcases b with _ | _
      · calc ((pruneLoop peek kept cs (closed ++ [c])).1).length
            ≤ kept.length + cs.length := ih kept (closed ++ [c])
          _ ≤ kept.length + (c :: cs).length := by simp
      · calc ((pruneLoop peek (kept ++ [c]) cs closed).1).length
            ≤ (kept ++ [c]).length + cs.length := ih (kept ++ [c]) closed
          _ ≤ kept.length + (c :: cs).length := by
              simp only [List.length_append, List.length_cons, List.length_nil]
              omega

/-- The capacity step brings a pool of at most `cap + 1` entries down to at
most `cap`. -/
theorem capacityStep_length_le (cap : Nat) (pool closed : List Socket)
    (h : pool.length ≤ cap + 1) :
    ((capacityStep cap pool closed).1).length ≤ cap := by
  unfold capacityStep
  split
  · rename_i hgt
    rcases pool with _ | ⟨old, rest⟩
    · simp at hgt
    · rcases rest with _ | ⟨newFront, tl⟩
      · simp
      · simp at h ⊢
        omega
  · rename_i hgt
    simp at hgt ⊢
    omega

/-- The prune-then-capacity phase of an iteration, when it completes without
an exception, leaves at most `cap` pooled entries provided it started from
at most `cap + 1` (the most the accept step can produce from a pool within
capacity). -/
theorem pruneCapacity_pool_length_le (cap : Nat) (peek : Socket → Int × Int)
    (st : HCState) (h : st.pool.length ≤ cap + 1)
    (hok : (pruneCapacity cap peek st).2 = none) :
    ((pruneCapacity cap peek st).1).pool.length ≤ cap := by
  rcases hpl : (pruneLoop peek [] st.pool st.closed).2.2 with _ | e
  · simp only [pruneCapacity, hpl]
    apply capacityStep_length_le
    calc ((pruneLoop peek [] st.pool st.closed).1).length
        ≤ ([] : List Socket).length + st.pool.length :=
          pruneLoop_length_le peek st.pool [] st.closed
      _ ≤ cap + 1 := by simpa using h
  · exfalso
    simp only [pruneCapacity, hpl] at hok
    exact Option.noConfusion hok

/-- A completed iteration of the worker loop preserves the capacity bound:
if the pool held at most `cap` entries at the start of the iteration and no
exception escaped, it holds at most `cap` entries at the end. -/
theorem tick_pool_length_le (cap : Nat) (env : TickEnv) (st : HCState)
    (h : st.pool.length ≤ cap) (hok : (tick cap env st).2 = none) :
    ((tick cap env st).1).pool.length ≤ cap := by
  obtain ⟨acc, snb, peek⟩ := env
  rcases acc with s | e
  · rcases snb with _ | e
    · have ht : tick cap ⟨.acceptConn s, none, peek⟩ st
          = pruneCapacity cap peek { st with pool := st.pool ++ [s] } := rfl
      rw [ht] at hok ⊢
      apply pruneCapacity_pool_length_le cap peek _ _ hok
      simp
      omega
    · exfalso
      have h2 : (tick cap ⟨.acceptConn s, some e, peek⟩ st).2
          = thrown (HandleSocketError e e) := rfl
      obtain ⟨exn, hexn⟩ := handleSocketError_always_error e e
      rw [hok, hexn] at h2
      exact Option.noConfusion h2
  · by_cases hnb : IsNonBlockingError e
    · have ht : tick cap ⟨.acceptError e, snb, peek⟩ st = pruneCapacity cap peek st := by
        simp [tick, hnb]
      rw [ht] at hok ⊢
      exact pruneCapacity_pool_length_le cap peek st (Nat.le_succ_of_le h) hok
    · exfalso
      have h2 : (tick cap ⟨.acceptError e, snb, peek⟩ st).2
          = thrown (HandleSocketError e e) := by
        simp [tick, hnb]
      obtain ⟨exn, hexn⟩ := handleSocketError_always_error e e
      rw [hok, hexn] at h2
      exact Option.noConfusion h2

/-- The capacity bound is preserved along any exception-free run of the
worker loop. -/
theorem runTicks_pool_length_le (cap : Nat) :
    ∀ (envs : List TickEnv) (st : HCState), st.pool.length ≤ cap →
      (runTicks cap envs st).2 = none →
      ((runTicks cap envs st).1).pool.length ≤ cap := by
  intro envs
  induction envs with
  | nil =>
    intro st h _
    simpa [runTicks] using h
  | cons env restEnvs ih =>
    intro st h hok
    by_cases hb : st.bRun
    · rcases ht : tick cap env st with ⟨st1, ex⟩
      rcases ex with _ | e
      · have hr : runTicks cap (env :: restEnvs) st = runTicks cap restEnvs st1 := by
          simp [runTicks, hb, ht]
        rw [hr] at hok ⊢
        apply ih st1 _ hok
        have h1 := tick_pool_length_le cap env st h (by rw [ht])
        rwa [ht] at h1
      · have hr : runTicks cap (env :: restEnvs) st = (st1, some e) := by
          simp [runTicks, hb, ht]
        rw [hr] at hok
        exact Option.noConfusion hok
    · have hr : runTicks cap (env :: restEnvs) st = (st, none) := by
        simp [runTicks, hb]
      rw [hr]
      exact h


/-! Claim theorems. -/

/-- C1: at the end of every completed iteration of the accept/prune/evict
loop, the connection pool holds at most `MAX_NUM_HEALTH_CONNECTIONS` (here
the parameter `cap`) entries, even though the capacity-enforcement step
removes at most one entry per iteration.  Every reachable end-of-iteration
state of a run from the initial state is the final state of `runTicks` on
some prefix of the environment list, so quantifying over all `envs` covers
all reachable states; `(…).2 = none` states that no exception cut the last
iteration short, i.e. that the iteration actually ran to its end. -/
theorem hc_C1 (cap : Nat) (envs : List TickEnv)
    (hok : (runTicks cap envs initState).2 = none) :
    ((runTicks cap envs initState).1).pool.length ≤ cap :=
  runTicks_pool_length_le cap envs initState (by simp [initState]) hok

theorem hc_C1_witness :
    (runTicks 1 scenarioEnvs initState).2 = none ∧
    ((runTicks 1 scenarioEnvs initState).1).pool.length ≤ 1 :=
  ⟨rfl, hc_C1 1 scenarioEnvs rfl⟩

/-- C2: with capacity 2 and connections 1, 2, 3 accepted in order without
any closing, after the iteration that accepts connection 3 the pool is
exactly `[2, 3]` — but the handle passed to `CloseSocket` is connection 2,
not the evicted connection 1: the source reads the reference
`int& oldConnection = ConnectionSockets.front()` only after
`erase(cbegin())` has shifted the elements, so it closes the new front while
the evicted oldest handle is leaked.  This contradicts the claim ("C1 has
been closed") and the source's own comment ("Disconnect and remove the
oldest one"). -/
theorem hc_C2 :
    ((runTicks 2 scenarioEnvs initState).1).pool = [2, 3] ∧
    ((runTicks 2 scenarioEnvs initState).1).closed = [2] ∧
    (runTicks 2 scenarioEnvs initState).2 = none :=
  ⟨rfl, rfl, rfl⟩

/-- C3 counterexample: a worker holding the single connection 7 whose
liveness peek fails with `errno = EIO` (neither would-block nor
peer-closed).  Contrary to the claim, the connection is NOT closed and NOT
removed — the pool still holds 7 and nothing was passed to `CloseSocket` —
and the worker does not keep running: `HandleSocketError` throws inside
`SocketConnected`, nothing in `run` catches it, and the exception escapes
the iteration. -/
theorem hc_C3_cex :
    ((tick 2 envC3 stC3).1).pool = [7] ∧
    ((tick 2 envC3 stC3).1).closed = [] ∧
    (tick 2 envC3 stC3).2 = some eioExn :=
  ⟨rfl, rfl, rfl⟩

/-- C3 (amended): if the liveness peek on the connection at the front of the
pool fails with an error kind that is neither WouldBlock nor PeerClosed
(i.e. `SocketConnected` throws), the exception escapes the worker loop —
the worker stops — and the connection is still in the pool, neither closed
nor removed. -/
theorem hc_C3 (cap : Nat) (st : HCState) (env : TickEnv) (c : Socket)
    (rest : List Socket) (exn : CGenErr)
    (hpool : st.pool = c :: rest)
    (hacc : env.accept = .acceptError EAGAIN)
    (hpeek : SocketConnected (env.peek c).1 (env.peek c).2 = .error exn) :
    (tick cap env st).2 = some exn ∧ c ∈ ((tick cap env st).1).pool := by
  obtain ⟨acc, snb, peek⟩ := env
  simp only at hacc hpeek
  subst hacc
  have ht : tick cap ⟨.acceptError EAGAIN, snb, peek⟩ st = pruneCapacity cap peek st := by
    simp [tick, IsNonBlockingError]
  rw [ht]
  unfold pruneCapacity
  rw [hpool]
  unfold pruneLoop
  rw [hpeek]
  simp

theorem hc_C3_witness :
    stC3.pool = 7 :: [] ∧
    envC3.accept = .acceptError EAGAIN ∧
    SocketConnected (envC3.peek 7).1 (envC3.peek 7).2 = .error eioExn ∧
    ((tick 2 envC3 stC3).2 = some eioExn ∧ 7 ∈ ((tick 2 envC3 stC3).1).pool) :=
  ⟨rfl, rfl, rfl, hc_C3 2 stC3 envC3 7 [] eioExn rfl rfl rfl⟩

/-- C4: the claim (after `stop()` the pool is empty with every pooled handle
closed, and a second `stop()` is observably the same) fails on the code.
With two pooled connections 10 and 20, `Stop`'s loop closes and erases 10,
but `connection = erase(connection)` already yields the iterator to 20 and
the `for`'s `++connection` then skips it: the loop exits with 20 still in
the pool and never closed.  (With an odd number of connections the
incremented iterator runs past `cend()` and the next dereference is
undefined behaviour, `none` in the model — so a second `stop()` on the
leftover singleton pool is not even well-defined, let alone a no-op.) -/
theorem hc_C4 :
    threadStop { bRun := true, pool := [10, 20], closed := [], listenClosed := false }
      = some { bRun := false, pool := [20], closed := [10], listenClosed := true } ∧
    threadStop { bRun := false, pool := [20], closed := [10], listenClosed := true }
      = none :=
  ⟨rfl, rfl⟩

/-- C5: if `accept()` fails with any errno other than a non-blocking one,
the worker clears `bRun` (leaves Running) before `HandleSocketError` throws;
the exception skips the prune and capacity steps of that iteration — the
pool and close trace are exactly as before, whatever the peek oracle would
have said — and exactly one exception (the single `some`) escapes as the
error report. -/
theorem hc_C5 (cap : Nat) (st : HCState) (env : TickEnv) (e : Int)
    (hacc : env.accept = .acceptError e) (hfatal : IsNonBlockingError e = false) :
    (tick cap env st).1 = { st with bRun := false } ∧
    ∃ exn, (tick cap env st).2 = some exn := by
  obtain ⟨acc, snb, peek⟩ := env
  simp only at hacc
  subst hacc
  obtain ⟨exn, hexn⟩ := handleSocketError_always_error e e
  refine ⟨by simp [tick, hfatal], ⟨exn, ?_⟩⟩
  simp [tick, hfatal, thrown, hexn]

theorem hc_C5_witness :
    envC5.accept = .acceptError EIOErr ∧
    IsNonBlockingError EIOErr = false ∧
    ((tick 2 envC5 stC5).1 = { stC5 with bRun := false } ∧
      ∃ exn, (tick 2 envC5 stC5).2 = some exn) :=
  ⟨rfl, rfl, hc_C5 2 stC5 envC5 EIOErr rfl rfl⟩

/-- C6: the liveness peek consists of a one-byte read; a `0` result makes
`SocketConnected` return `false` — at iteration level the handle is closed
and removed from the pool — and a would-block failure makes it return
`true` — the handle stays in the pool (stated for a singleton pool within
capacity, so the eviction step does not interfere). -/
theorem hc_C6 :
    (∀ en : Int, SocketConnected 0 en = .ok false) ∧
    (∀ e : Int, IsNonBlockingError e = true → SocketConnected (-1) e = .ok true) ∧
    (∀ (cap : Nat) (st : HCState) (env : TickEnv) (c : Socket),
      st.pool = [c] → env.accept = .acceptError EAGAIN → env.peek c = (0, 0) →
      ((tick cap env st).1).pool = [] ∧
      ((tick cap env st).1).closed = st.closed ++ [c]) ∧
    (∀ (cap : Nat) (st : HCState) (env : TickEnv) (c : Socket),
      1 ≤ cap → st.pool = [c] → env.accept = .acceptError EAGAIN →
      env.peek c = (-1, EAGAIN) →
      ((tick cap env st).1).pool = [c]) := by
  refine ⟨?_, ?_, ?_, ?_⟩
  · intro en
    simp [SocketConnected]
  · intro e h
    simp [SocketConnected, h]
  · intro cap st env c hpool hacc hpeek
    obtain ⟨acc, snb, peek⟩ := env
    simp only at hacc hpeek
    subst hacc
    have ht : tick cap ⟨.acceptError EAGAIN, snb, peek⟩ st = pruneCapacity cap peek st := by
      simp [tick, IsNonBlockingError]
    rw [ht]
    unfold pruneCapacity
    rw [hpool]
    unfold pruneLoop
    rw [hpeek]
    simp [SocketConnected, pruneLoop, capacityStep]
  · intro cap st env c hcap hpool hacc hpeek
    obtain ⟨acc, snb, peek⟩ := env
    simp only at hacc hpeek
    subst hacc
    have ht : tick cap ⟨.acceptError EAGAIN, snb, peek⟩ st = pruneCapacity cap peek st := by
      simp [tick, IsNonBlockingError]
    rw [ht]
    unfold pruneCapacity
    rw [hpool]
    unfold pruneLoop
    rw [hpeek]
    have hconn : SocketConnected (-1 : Int) EAGAIN = .ok true := by
      simp [SocketConnected, IsNonBlockingError]
    rw [hconn]
    have hno : ¬ ((1 : Nat) > cap) := by omega
    simp [pruneLoop, capacityStep, hno]

theorem hc_C6_witness :
    SocketConnected 0 3 = .ok false ∧
    (IsNonBlockingError EAGAIN = true ∧ SocketConnected (-1) EAGAIN = .ok true) ∧
    (((tick 2 envC6a stC6).1).pool = [] ∧
      ((tick 2 envC6a stC6).1).closed = stC6.closed ++ [9]) ∧
    ((tick 2 envC6b stC6).1).pool = [9] :=
  ⟨hc_C6.1 3, ⟨rfl, hc_C6.2.1 EAGAIN rfl⟩,
   hc_C6.2.2.1 2 stC6 envC6a 9 rfl rfl rfl,
   hc_C6.2.2.2 2 stC6 envC6b 9 (by omega) rfl rfl rfl⟩

/-- C7: if `::bind` fails with `errno = EADDRINUSE`, `Init` — and with it
the `CHealthCheckSocket` constructor — throws the address-in-use `CGenErr`
synchronously to the caller; no object results, so `Listen()` is never
called and the accept worker is never started (no state, in particular none
with `bRun = true`, is ever produced). -/
theorem hc_C7 (env : InitEnv) (hnb : env.setNBOk = true)
    (hbind : env.bindResult = -1) (herr : env.bindErrno = EADDRINUSE) :
    construct env = .error addrInUseExn ∧ ∀ st, construct env ≠ .ok st := by
  obtain ⟨snb, snbe, br, be⟩ := env
  simp only at hnb hbind herr
  subst hnb
  subst hbind
  subst herr
  have h1 : construct ⟨true, snbe, -1, EADDRINUSE⟩ = .error addrInUseExn := rfl
  refine ⟨h1, ?_⟩
  intro st h
  rw [h1] at h
  exact Except.noConfusion h

theorem hc_C7_witness :
    construct ⟨true, 0, -1, EADDRINUSE⟩ = .error addrInUseExn ∧
    ∀ st, construct ⟨true, 0, -1, EADDRINUSE⟩ ≠ .ok st :=
  hc_C7 ⟨true, 0, -1, EADDRINUSE⟩ rfl rfl rfl

/-- C8: when `accept()` fails with a non-blocking errno (no pending
connection), the iteration is exactly the prune-and-capacity phase applied
to the unchanged state: nothing is appended to the pool, no exception is
raised by the accept step, `bRun` is untouched, and control proceeds
directly to the prune step. -/
theorem hc_C8 (cap : Nat) (st : HCState) (env : TickEnv) (e : Int)
    (hacc : env.accept = .acceptError e) (hnb : IsNonBlockingError e = true) :
    tick cap env st = pruneCapacity cap env.peek st := by
  obtain ⟨acc, snb, peek⟩ := env
  simp only at hacc ⊢
  subst hacc
  simp [tick, hnb]

theorem hc_C8_witness :
    envC6b.accept = .acceptError EAGAIN ∧
    IsNonBlockingError EAGAIN = true ∧
    tick 1 envC6b stC6 = pruneCapacity 1 envC6b.peek stC6 :=
  ⟨rfl, rfl, hc_C8 1 stC6 envC6b EAGAIN rfl rfl⟩

/-- C9: `HandleSocketError` never returns normally — for every argument and
every `errno` its result is `.error` — and consequently the dead
`return false` after its call in `SocketConnected` is unreachable: on the
fatal peek path (`read` returned `-1` with an errno that is neither
non-blocking nor a disconnect) `SocketConnected` always propagates an
exception rather than returning. -/
theorem hc_C9 :
    (∀ e en : Int, ∃ exn, HandleSocketError e en = .error exn) ∧
    (∀ en : Int, IsNonBlockingError en = false → IsDisconnectError en = false →
      ∃ exn, SocketConnected (-1) en = .error exn) := by
  refine ⟨handleSocketError_always_error, ?_⟩
  intro en h1 h2
  obtain ⟨exn, hexn⟩ := handleSocketError_always_error en en
  exact ⟨exn, by simp [SocketConnected, h1, h2, hexn]⟩

theorem hc_C9_witness :
    (∃ exn, HandleSocketError 0 EIOErr = .error exn) ∧
    (IsNonBlockingError EIOErr = false ∧ IsDisconnectError EIOErr = false ∧
      ∃ exn, SocketConnected (-1) EIOErr = .error exn) :=
  ⟨hc_C9.1 0 EIOErr, rfl, rfl, hc_C9.2 EIOErr rfl rfl⟩

/-- C10: the branch of `HandleSocketError` is selected by the `errno` value
alone, never by the `error` argument: for an `errno` hitting a named case
the thrown exception is identical whatever the argument, and for any other
`errno` the default branch throws the fallback message, which is the only
place the argument appears. -/
theorem hc_C10 :
    (∀ e1 e2 en : Int, en ∈ namedErrnos →
      HandleSocketError e1 en = HandleSocketError e2 en) ∧
    (∀ e en : Int, en ∉ namedErrnos →
      HandleSocketError e en
        = .error ⟨"HealthCheck: Socket error # " ++ toString e, "Network Error"⟩) := by
  constructor
  · intro e1 e2 en hmem
    simp only [namedErrnos, List.mem_cons, List.not_mem_nil, or_false] at hmem
    rcases hmem with h | h | h | h | h | h | h | h | h <;> subst h <;> rfl
  · intro e en hmem
    simp only [namedErrnos, List.mem_cons, List.not_mem_nil, or_false, not_or] at hmem
    obtain ⟨h1, h2, h3, h4, h5, h6, h7, h8, h9⟩ := hmem
    unfold HandleSocketError
    rw [if_neg h1, if_neg h2, if_neg h3, if_neg h4, if_neg h5, if_neg h6,
      if_neg h7, if_neg h8, if_neg h9]

theorem hc_C10_witness :
    (EACCES ∈ namedErrnos ∧ HandleSocketError 1 EACCES = HandleSocketError 2 EACCES) ∧
    ((1234 : Int) ∉ namedErrnos ∧
      HandleSocketError 7 1234
        = .error ⟨"HealthCheck: Socket error # " ++ toString (7 : Int), "Network Error"⟩) :=
  ⟨⟨by decide, hc_C10.1 1 2 EACCES (by decide)⟩,
   ⟨by decide, hc_C10.2 7 1234 (by decide)⟩⟩

end HealthCheck
